import Mathlib

/-!
Shallow embedding of the mika BitTorrent tracker core
(`src/tracker/peer.go`, package `tracker`, and the scrape handler in
`src/unnamed/part_000`, package `http`), together with theorems checking
the natural-language specification against it.

Machine integers are modelled as `Nat` with explicit wrapping
(`% 2^64` / `% 2^32`) at the operations where Go's `uint64`/`uint32`
arithmetic can wrap, and Go's `int32` timestamps are modelled as `Int`
with explicit 32-bit wrapping where the code performs `int32` arithmetic.
Go `float64` speed estimates are modelled over `ℚ` (no claim depends on
floating-point rounding).  Reads of the ambient clock (`util.Unixtime()`)
and of the global configuration (`conf.Config`) become explicit
parameters `now` and `cfg`.
-/

namespace Mika

/-- Modulus of Go `uint64` arithmetic. -/
def u64 : Nat := 2 ^ 64

/-- Go `uint32` truncation: `uint32(x)` and wrapping `uint32` addition. -/
def u32Mod (n : Nat) : Nat := n % 2 ^ 32

/-- Go `uint64` subtraction `a - b`: wraps modulo `2^64` (operands are
assumed `< 2^64`, as every Go `uint64` value is). -/
def usub64 (a b : Nat) : Nat := (a + u64 - b) % u64

/-- Go `int32` wrapping: the representative of `n` in `[-2^31, 2^31)`,
as produced by `int32` arithmetic. -/
def wrap32 (n : Int) : Int := (n + 2 ^ 31) % 2 ^ 32 - 2 ^ 31

/-- Go conversion `uint64(x)` of a (possibly negative) `int32` value `x`:
reinterpretation modulo `2^64`. -/
def intToU64 (n : Int) : Nat := (n % (2 ^ 64 : Int)).toNat

/-- Announce event constants `STARTED` / `STOPPED` / `COMPLETED` /
`RUNNING` used by `Peer.Update` (`announce.Event == STARTED`, `== STOPPED`). -/
inductive Event where
  | started
  | stopped
  | completed
  | running
deriving DecidableEq, Repr

/-- The `Peer` record of `src/tracker/peer.go` (lines 16-43).  The embedded
`db.Queued` marker and the `sync.RWMutex` carry no data and are omitted;
`float64` speed fields are modelled over `ℚ`. -/
structure Peer where
  SpeedUP : ℚ
  SpeedDN : ℚ
  SpeedUPMax : ℚ
  SpeedDNMax : ℚ
  Uploaded : Nat
  Downloaded : Nat
  UploadedLast : Nat
  DownloadedLast : Nat
  Corrupt : Nat
  IP : String
  Port : Nat
  Left : Nat
  Announces : Nat
  TotalTime : Nat
  AnnounceLast : Int
  AnnounceFirst : Int
  New : Bool
  PeerID : String
  Active : Bool
  Username : String
  UserID : Nat
  TorrentID : Nat
  KeyPeer : String
  KeyTimer : String
deriving DecidableEq, Repr

/-- Modelled from the spec: the `AnnounceRequest` type is not under `src/`
(only its fields used by `Peer.Update` are visible there).  Per spec §3 it
carries peer-id, reported IP, port, uploaded/downloaded/corrupt/left
counters and the event.  `announce.IPv4` is a `net.IP`; `Peer.Update` only
uses `announce.IPv4.String()`, so the field is modelled directly as that
dotted string. -/
structure AnnounceRequest where
  PeerID : String
  Event : Event
  Uploaded : Nat
  Downloaded : Nat
  Corrupt : Nat
  Left : Nat
  IPv4 : String
  Port : Nat
deriving DecidableEq, Repr

/-- Modelled from the spec: the `conf` package is not under `src/`.
`conf.Config` supplies the announce interval and the hit-and-run
thresholds (spec §9: global tracker configuration read implicitly). -/
structure Config where
  AnnInterval : Nat
  HNRMinBytes : Nat
  HNRThreshold : Nat
deriving DecidableEq, Repr

/-- Modelled from the spec: `util.EstSpeed` is not under `src/`.  Spec §4.2:
zero if the elapsed time is non-positive or zero; otherwise
byte-delta / elapsed-seconds (Go `float64` division modelled over `ℚ`). -/
def estSpeed (last cur : Int) (delta : Nat) : ℚ :=
  if cur - last ≤ 0 then 0 else (delta : ℚ) / ((cur - last : Int) : ℚ)

/-- Lines 56-72 of `Peer.Update`: the upload/download delta accounting.
Returns `((ul_diff, dl_diff), updated peer)`. -/
def updateCounters (peer : Peer) (announce : AnnounceRequest) :
    (Nat × Nat) × Peer :=
  if announce.Event = Event.started then
    ((0, 0), { peer with Uploaded := announce.Uploaded,
                         Downloaded := announce.Downloaded })
  else if announce.Uploaded < peer.Uploaded ∨
          announce.Downloaded < peer.Downloaded then
    ((0, 0), { peer with Uploaded := announce.Uploaded,
                         Downloaded := announce.Downloaded })
  else
    let s1 : Nat × Peer :=
      if announce.Uploaded ≠ peer.Uploaded then
        (usub64 announce.Uploaded peer.Uploaded,
         { peer with Uploaded := announce.Uploaded })
      else (0, peer)
    let s2 : Nat × Peer :=
      if announce.Downloaded ≠ s1.2.Downloaded then
        (usub64 announce.Downloaded s1.2.Downloaded,
         { s1.2 with Downloaded := announce.Downloaded })
      else (0, s1.2)
    ((s1.1, s2.1), s2.2)

/-- `Peer.Update` (`src/tracker/peer.go` lines 46-98).  The two calls to
`util.Unixtime()` (line 49 and line 88) are modelled by the single
parameter `now` (the wall clock in whole seconds; both calls occur within
the same request).  Returns `((ul_diff, dl_diff), updated peer)`. -/
def Peer.Update (peer : Peer) (announce : AnnounceRequest) (cfg : Config)
    (now : Int) : (Nat × Nat) × Peer :=
  let cur_time := now
  let p0 := { peer with PeerID := announce.PeerID,
                        Announces := (peer.Announces + 1) % u64 }
  let c := updateCounters p0 announce
  let ul_diff := c.1.1
  let dl_diff := c.1.2
  let p1 := { c.2 with IP := announce.IPv4, Port := announce.Port,
                       Corrupt := announce.Corrupt, Left := announce.Left }
  let p2 := { p1 with SpeedUP := estSpeed p1.AnnounceLast cur_time ul_diff,
                      SpeedDN := estSpeed p1.AnnounceLast cur_time dl_diff }
  let p3 : Peer := if p2.SpeedUP > p2.SpeedUPMax
            then { p2 with SpeedUPMax := p2.SpeedUP } else p2
  let p4 : Peer := if p3.SpeedDN > p3.SpeedDNMax
            then { p3 with SpeedDNMax := p3.SpeedDN } else p3
  let p5 : Peer :=
    if p4.Active = true ∧ p4.AnnounceLast > 0 then
      let time_diff := intToU64 (wrap32 (now - p4.AnnounceLast))
      if time_diff < (cfg.AnnInterval * 4) % u64 then
        { p4 with TotalTime := u32Mod (p4.TotalTime + u32Mod time_diff) }
      else p4
    else p4
  let p6 : Peer := if announce.Event = Event.stopped
            then { p5 with Active := false } else p5
  ((ul_diff, dl_diff), p6)

/-- `Peer.IsHNR` (lines 131-133): hit-and-run classification.  The Go
source casts the configured threshold with `uint32(conf.Config.HNRThreshold)`,
modelled by `u32Mod`. -/
def Peer.IsHNR (peer : Peer) (cfg : Config) : Bool :=
  decide (peer.Downloaded > cfg.HNRMinBytes) &&
  decide (peer.Left > 0) &&
  decide (peer.TotalTime < u32Mod cfg.HNRThreshold)

/-- `Peer.IsSeeder` (lines 135-137). -/
def Peer.IsSeeder (peer : Peer) : Bool :=
  peer.Left == 0

/-- The default-value `Peer` literal of `MakePeer` (lines 166-188): the
peer created for a never-seen (infohash, peer-id) pair.  The
redis-hydration branch of `MakePeer` (lines 190-203, external store reply
parsing) is not modelled; this is the fresh-peer path. -/
def makeDefaultPeer (torrent_id : Nat) (info_hash peer_id : String)
    (now : Int) : Peer :=
  { PeerID := peer_id
    Active := false
    Announces := 0
    SpeedUP := 0
    SpeedDN := 0
    SpeedUPMax := 0
    SpeedDNMax := 0
    Uploaded := 0
    Downloaded := 0
    UploadedLast := 0
    DownloadedLast := 0
    Left := 0
    Corrupt := 0
    Username := ""
    IP := "127.0.0.1"
    Port := 0
    AnnounceFirst := now
    AnnounceLast := now
    TotalTime := 0
    UserID := 0
    TorrentID := torrent_id
    New := false
    KeyPeer := "t:p:" ++ info_hash ++ ":" ++ peer_id
    KeyTimer := "t:ptimeout:" ++ info_hash ++ ":" ++ peer_id }

/-- Split a character list at every dot, keeping empty segments (the
shape of splitting a dotted-quad address string). -/
def splitDots : List Char → List (List Char)
  | [] => [[]]
  | c :: rest =>
    match splitDots rest with
    | [] => [[]]
    | g :: gs => if c = '.' then [] :: g :: gs else (c :: g) :: gs

/-- Decimal value of a digit list (most significant first). -/
def digitsVal (cs : List Char) : Nat :=
  cs.foldl (fun a c => 10 * a + (c.toNat - 48)) 0

/-- One dotted-quad octet as accepted by Go's `net.ParseIP` IPv4 path:
one to three decimal digits with value at most 255. -/
def parseOctet (cs : List Char) : Option Nat :=
  if cs.length = 0 ∨ 3 < cs.length then none
  else if ¬ cs.all Char.isDigit then none
  else if digitsVal cs ≤ 255 then some (digitsVal cs) else none

/-- Model of `net.ParseIP(s).To4()` restricted to dotted-quad strings:
`some [a, b, c, d]` for a valid IPv4 address, `none` (Go: `nil`)
otherwise.  IPv4-mapped IPv6 spellings (for which `To4` also yields four
bytes) are not modelled; no theorem below depends on them. -/
def parseIPv4 (s : String) : Option (List Nat) :=
  match (splitDots s.data).mapM parseOctet with
  | none => none
  | some l => if l.length = 4 then some l else none

/-- The bytes `bytes.Buffer.Write` appends for `net.ParseIP(ip).To4()`:
four bytes for a valid IPv4 address, nothing for a `nil` slice
(`Write(nil)` writes zero bytes). -/
def ipWriteBytes (ip : String) : List Nat :=
  match parseIPv4 ip with
  | some l => l
  | none => []

/-- `MakeCompactPeers` (`src/tracker/peer.go` lines 146-161): for each peer,
skip if `Port <= 0` (with `uint64` port, only port 0) or if its peer-id
equals `skip_id`; otherwise append the `To4()` bytes of its stored IP
string followed by the two big-endian port bytes
`byte(Port >> 8), byte(Port & 0xff)`.  The output is the buffer's byte
list. -/
def MakeCompactPeers : List Peer → String → List Nat
  | [], _ => []
  | peer :: rest, skip_id =>
    if peer.Port ≤ 0 then MakeCompactPeers rest skip_id
    else if peer.PeerID = skip_id then MakeCompactPeers rest skip_id
    else ipWriteBytes peer.IP ++ [peer.Port / 2 ^ 8 % 2 ^ 8, peer.Port % 2 ^ 8]
           ++ MakeCompactPeers rest skip_id

/-- The `Tracker` state as used by `IsValidClient`: the client whitelist
(ordered list of accepted peer-id prefixes). -/
structure Tracker where
  Whitelist : List String

/-- Go `strings.HasPrefix(s, p)`: literal byte-wise prefix test, modelled
on the character lists of the strings. -/
def strHasPrefix (s p : String) : Bool :=
  p.data.isPrefixOf s.data

/-- The loop of `IsValidClient` (lines 211-215): return `true` on the first
whitelist entry that is a literal prefix of the peer-id, `false` when the
list is exhausted. -/
def isValidClientLoop : List String → String → Bool
  | [], _ => false
  | w :: rest, peer_id =>
    if strHasPrefix peer_id w then true else isValidClientLoop rest peer_id

/-- `Tracker.IsValidClient` (`src/tracker/peer.go` lines 209-219).  The
redis connection argument of the Go method is unused by the function body
and omitted. -/
def Tracker.IsValidClient (t : Tracker) (peer_id : String) : Bool :=
  isValidClientLoop t.Whitelist peer_id

/-! Scrape handler (`src/unnamed/part_000`, package `http`).  The gin
context, pre-flight auth check and bencode serialization are the external
boundary; the model covers the handler from query parsing onward:
parse result (`none` = `queryStringParser` error), empty-infohash check,
then the per-infohash lookup loop building the response dictionary. -/

/-- Modelled from the spec: `model.InfoHashFromString` / `InfoHash.String`
are not under `src/`.  Spec §3: an infohash has a canonical string form
used as a lookup key; the model identifies an `InfoHash` with that
canonical string, so `infoHashFromString` is the identity on canonical
strings. -/
def infoHashFromString (s : String) : String := s

/-- Modelled from the spec: the torrent record; only the lifetime
completed-download counter `TotalCompleted` is read by the scrape
handler. -/
structure Torrent where
  TotalCompleted : Nat
deriving DecidableEq, Repr

/-- Modelled from the spec: a peer as seen by the scrape path; only
bytes-left is needed (`left == 0` ⇔ seeder, spec §4.2). -/
structure SwarmPeer where
  left : Nat
deriving DecidableEq, Repr

/-- Modelled from the spec: `Swarm.Counts()` — seeders and leechers
computed from the live peer set (spec §3 SwarmCounts, §4.2 IsSeeder). -/
def swarmCounts (peers : List SwarmPeer) : Nat × Nat :=
  ((peers.filter (fun p => p.left = 0)).length,
   (peers.filter (fun p => p.left ≠ 0)).length)

/-- One value of the scrape response dictionary: the `complete` /
`downloaded` / `incomplete` fields (lines 48-52). -/
structure ScrapeEntry where
  complete : Nat
  downloaded : Nat
  incomplete : Nat
deriving DecidableEq, Repr

/-- The scrape response dictionary (`bencode.Dict`): association list with
map semantics (assignment to an existing key overwrites it). -/
def Dict := List (String × ScrapeEntry)

/-- Go map assignment `resp[k] = v`: overwrite the existing binding of `k`
or append a new one. -/
def dictInsert : Dict → String → ScrapeEntry → Dict
  | [], k, v => [(k, v)]
  | (k', v') :: rest, k, v =>
    if k' = k then (k, v) :: rest else (k', v') :: dictInsert rest k v

/-- Lookup in the response dictionary. -/
def dictLookup : Dict → String → Option ScrapeEntry
  | [], _ => none
  | (k', v) :: rest, k => if k' = k then some v else dictLookup rest k

/-- The parsed scrape query: its sequence of infohash strings
(`q.InfoHashes`). -/
structure ScrapeQuery where
  InfoHashes : List String
deriving DecidableEq, Repr

/-- Failure reasons the handler can answer with (`oops(c, msg...)`);
the scrape path only uses `msgMalformedRequest`. -/
inductive TrackerErrCode where
  | msgMalformedRequest
deriving DecidableEq, Repr

/-- Outcome of the scrape handler: a failure response or the response
dictionary handed to the bencode encoder. -/
inductive ScrapeResult where
  | failure (code : TrackerErrCode)
  | ok (dict : Dict)

/-- The loop of lines 35-53: for each requested infohash, a registry
lookup (`Torrents.Get`); on miss `continue` (silently omit); on hit fetch
up to 100 peers (`Peers.GetN(ih, 100)`, modelled from the spec contract
`GetPeers(infohash, limit) → []Peer`, which does not fail), compute
`Counts()` and assign the entry to the dictionary.  Also returns the list
of infohashes a registry lookup was performed for, in order. -/
def scrapeLoop (torrents : String → Option Torrent)
    (peersOf : String → List SwarmPeer) :
    List String → Dict → Dict × List String
  | [], resp => (resp, [])
  | ihStr :: rest, resp =>
    let ih := infoHashFromString ihStr
    match torrents ih with
    | none =>
      let r := scrapeLoop torrents peersOf rest resp
      (r.1, ih :: r.2)
    | some torrent =>
      let peers := (peersOf ih).take 100
      let sl := swarmCounts peers
      let entry : ScrapeEntry :=
        { complete := sl.1, downloaded := torrent.TotalCompleted,
          incomplete := sl.2 }
      let r := scrapeLoop torrents peersOf rest (dictInsert resp ih entry)
      (r.1, ih :: r.2)

/-- The scrape handler from query parsing onward (`src/unnamed/part_000`
lines 18-53).  `q = none` models a `queryStringParser` error; an empty
infohash sequence is rejected as malformed; otherwise the lookup loop
runs starting from the empty dictionary.  The second component is the
list of registry lookups performed (empty on the rejection paths).  The
embedding is pure: no path mutates any tracker state. -/
def scrape (torrents : String → Option Torrent)
    (peersOf : String → List SwarmPeer) (q : Option ScrapeQuery) :
    ScrapeResult × List String :=
  match q with
  | none => (ScrapeResult.failure TrackerErrCode.msgMalformedRequest, [])
  | some q =>
    if q.InfoHashes.length = 0 then
      (ScrapeResult.failure TrackerErrCode.msgMalformedRequest, [])
    else
      let r := scrapeLoop torrents peersOf q.InfoHashes []
      (ScrapeResult.ok r.1, r.2)

/-- The registry-derived entry for an infohash: what the response must
bind a requested, resolvable infohash to. -/
def scrapeEntryFor (torrents : String → Option Torrent)
    (peersOf : String → List SwarmPeer) (k : String) : Option ScrapeEntry :=
  match torrents k with
  | none => none
  | some torrent =>
    let peers := (peersOf k).take 100
    let sl := swarmCounts peers
    some { complete := sl.1, downloaded := torrent.TotalCompleted,
           incomplete := sl.2 }

/-! Concrete instances used by counterexamples and witnesses. -/

/-- A tracker configuration with the hit-and-run byte minimum 100 and the
active-seconds maximum 10. -/
def cfgC1 : Config := { AnnInterval := 1800, HNRMinBytes := 100, HNRThreshold := 10 }

/-- A peer that downloaded exactly the configured minimum (100 bytes),
never completed (`Left = 1`) and accrued no active time. -/
def peerC1 : Peer :=
  { makeDefaultPeer 1 "infohash1" "peerC1" 1000 with
      Downloaded := 100, Left := 1, TotalTime := 0 }

/-- A generic sane configuration for the announce scenarios. -/
def cfgX : Config := { AnnInterval := 1800, HNRMinBytes := 1000, HNRThreshold := 3600 }

/-- The announce of the three-announce delta scenario: uploaded varies,
everything else fixed. -/
def annC2 (ev : Event) (up : Nat) : AnnounceRequest :=
  { PeerID := "peerC2", Event := ev, Uploaded := up, Downloaded := 0,
    Corrupt := 0, Left := 500, IPv4 := "1.2.3.4", Port := 6881 }

/-- First announce of the scenario: `started`, uploaded 100, applied to a
freshly created peer. -/
def c2r1 : (Nat × Nat) × Peer :=
  (makeDefaultPeer 1 "infohash1" "peerC2" 1000).Update (annC2 Event.started 100) cfgX 1000

/-- Second announce: running, uploaded 150. -/
def c2r2 : (Nat × Nat) × Peer := c2r1.2.Update (annC2 Event.running 150) cfgX 1000

/-- Third announce: running, uploaded 140 (a decrease). -/
def c2r3 : (Nat × Nat) × Peer := c2r2.2.Update (annC2 Event.running 140) cfgX 1000

/-- A peer whose stored IP string is not a valid IPv4 address but whose
port is positive and whose peer-id differs from the excluded one. -/
def badIPPeer : Peer :=
  { makeDefaultPeer 1 "infohash1" "peerBad" 1000 with
      IP := "bogus", Port := 6881 }

/-- A peer with a valid IPv4 address, positive port and a peer-id
distinct from the excluded one. -/
def goodIPPeer : Peer :=
  { makeDefaultPeer 1 "infohash1" "peerGood" 1000 with
      IP := "10.2.3.4", Port := 6881 }

/-- A peer of the activity-window scenario: active, previous announce at
time 1000, 7 seconds already accrued. -/
def peerC5 : Peer :=
  { makeDefaultPeer 1 "infohash1" "peerC5" 1000 with
      Active := true, AnnounceLast := 1000, TotalTime := 7 }

/-- An announce for the activity-window scenario. -/
def annC5 : AnnounceRequest :=
  { PeerID := "peerC5", Event := Event.running, Uploaded := 10, Downloaded := 20,
    Corrupt := 0, Left := 500, IPv4 := "1.2.3.4", Port := 6881 }

/-- A torrent registry resolving exactly the infohashes `ih1` and `ih2`. -/
def torrentsX : String → Option Torrent := fun s =>
  if s = "ih1" ∨ s = "ih2" then some { TotalCompleted := 7 } else none

/-- A peer registry: every swarm holds one seeder and one leecher. -/
def peersX : String → List SwarmPeer := fun _ => [{ left := 0 }, { left := 5 }]

/-- A scrape query requesting three distinct infohashes of which `ih3` is
unknown to `torrentsX`. -/
def qX : ScrapeQuery := { InfoHashes := ["ih1", "ih2", "ih3"] }

/-- The whitelist of the prefix-matching scenario. -/
def trackerX : Tracker := { Whitelist := ["-AZ", "-UT"] }

/-- A peer whose stored counters exceed the next announce's reported
ones (the client-restart scenario). -/
def peerC4 : Peer :=
  { makeDefaultPeer 1 "infohash1" "peerC4" 1000 with
      Uploaded := 150, Downloaded := 10 }

/-- The announce of the restart scenario: reported uploaded 140 is below
the stored 150. -/
def annC4 : AnnounceRequest :=
  { PeerID := "peerC4", Event := Event.running, Uploaded := 140, Downloaded := 10,
    Corrupt := 0, Left := 500, IPv4 := "1.2.3.4", Port := 6881 }

/-! Helper lemmas. -/

/-- With `b ≤ a < 2^64` the wrapped `uint64` subtraction is exact. -/
theorem usub64_of_le {a b : Nat} (hba : b ≤ a) (ha : a < u64) :
    usub64 a b = a - b := by
  unfold usub64
  have h1 : a + u64 - b = (a - b) + u64 := by omega
  rw [h1, Nat.add_mod_right, Nat.mod_eq_of_lt (by omega)]

/-- A value already in `[0, 2^31)` is fixed by `int32` wrapping. -/
theorem wrap32_eq_of_small {m : Int} (h0 : 0 ≤ m) (h1 : m < 2 ^ 31) :
    wrap32 m = m := by
  unfold wrap32
  omega

/-- A nonnegative value below `2^64` converts to its own `Nat` value. -/
theorem intToU64_eq_toNat {m : Int} (h0 : 0 ≤ m) (h1 : m < 2 ^ 64) :
    intToU64 m = m.toNat := by
  unfold intToU64
  omega

/-- A successful IPv4 parse yields exactly four bytes. -/
theorem parseIPv4_length {s : String} {l : List Nat}
    (h : parseIPv4 s = some l) : l.length = 4 := by
  unfold parseIPv4 at h
  split at h
  · exact absurd h (by simp)
  · split at h
    · cases h
      assumption
    · exact absurd h (by simp)

/-- Go `strings.HasPrefix` agrees with the existence of a literal
remainder string. -/
theorem strHasPrefix_iff (s p : String) :
    strHasPrefix s p = true ↔ ∃ r : String, p ++ r = s := by
  unfold strHasPrefix
  rw [List.isPrefixOf_iff_prefix]
  show (∃ t, p.data ++ t = s.data) ↔ _
  constructor
  · rintro ⟨t, ht⟩
    refine ⟨⟨t⟩, String.ext ?_⟩
    rw [String.data_append]
    exact ht
  · rintro ⟨r, hr⟩
    exact ⟨r.data, by rw [← String.data_append, hr]⟩

/-- The whitelist loop returns true exactly when some entry is a literal
prefix of the peer-id. -/
theorem isValidClientLoop_iff (ws : List String) (peer_id : String) :
    isValidClientLoop ws peer_id = true ↔
    ∃ w ∈ ws, strHasPrefix peer_id w = true := by
  induction ws with
  | nil => simp [isValidClientLoop]
  | cons w rest ih =>
    simp only [isValidClientLoop]
    split
    · simp_all
    · rw [ih]
      simp_all [List.mem_cons]

/-- C8: for every peer-id and every whitelist, `IsValidClient` returns
true iff at least one configured prefix is a literal (case-sensitive,
un-normalized) prefix of the peer-id. -/
theorem C8_is_valid_client_iff (t : Tracker) (peer_id : String) :
    t.IsValidClient peer_id = true ↔
    ∃ w ∈ t.Whitelist, ∃ r : String, w ++ r = peer_id := by
  rw [Tracker.IsValidClient, isValidClientLoop_iff]
  exact exists_congr fun w =>
    and_congr_right fun _ => strHasPrefix_iff peer_id w

/-- The counter phase always stores the reported uploaded/downloaded
values (in the unchanged branches they are already equal). -/
theorem updateCounters_snd (p : Peer) (a : AnnounceRequest) :
    (updateCounters p a).2 =
      { p with Uploaded := a.Uploaded, Downloaded := a.Downloaded } := by
  unfold updateCounters
  split
  · rfl
  · split
    · rfl
    · simp only []
      split <;> split <;> simp_all

/-- The deltas returned by the counter phase. -/
theorem updateCounters_fst (p : Peer) (a : AnnounceRequest) :
    (updateCounters p a).1 =
      if a.Event = Event.started then (0, 0)
      else if a.Uploaded < p.Uploaded ∨ a.Downloaded < p.Downloaded then (0, 0)
      else ((if a.Uploaded ≠ p.Uploaded then usub64 a.Uploaded p.Uploaded else 0),
            (if a.Downloaded ≠ p.Downloaded then usub64 a.Downloaded p.Downloaded else 0)) := by
  unfold updateCounters
  split
  · simp_all
  · split
    · simp_all
    · simp only []
      split <;> split <;> simp_all

/-- The returned deltas are exactly those of the counter phase. -/
theorem update_fst (peer : Peer) (a : AnnounceRequest) (cfg : Config) (now : Int) :
    (peer.Update a cfg now).1 =
      (updateCounters { peer with PeerID := a.PeerID,
                                  Announces := (peer.Announces + 1) % u64 } a).1 := by
  simp [Peer.Update]

/-- The updated peer always stores the reported uploaded counter. -/
theorem update_snd_uploaded (peer : Peer) (a : AnnounceRequest) (cfg : Config) (now : Int) :
    ((peer.Update a cfg now).2).Uploaded = a.Uploaded := by
  simp [Peer.Update, apply_ite Peer.Uploaded, updateCounters_snd]

/-- The updated peer always stores the reported downloaded counter. -/
theorem update_snd_downloaded (peer : Peer) (a : AnnounceRequest) (cfg : Config) (now : Int) :
    ((peer.Update a cfg now).2).Downloaded = a.Downloaded := by
  simp [Peer.Update, apply_ite Peer.Downloaded, updateCounters_snd]

/-- The returned deltas, written out over the original peer fields. -/
theorem update_fst_eq (peer : Peer) (a : AnnounceRequest) (cfg : Config) (now : Int) :
    (peer.Update a cfg now).1 =
      if a.Event = Event.started then (0, 0)
      else if a.Uploaded < peer.Uploaded ∨ a.Downloaded < peer.Downloaded then (0, 0)
      else ((if a.Uploaded ≠ peer.Uploaded then usub64 a.Uploaded peer.Uploaded else 0),
            (if a.Downloaded ≠ peer.Downloaded then usub64 a.Downloaded peer.Downloaded else 0)) := by
  rw [update_fst, updateCounters_fst]

/-- The cumulative-time field after `Update`, mirroring the nesting of
the source conditionals. -/
theorem update_totalTime_raw (peer : Peer) (a : AnnounceRequest) (cfg : Config) (now : Int) :
    ((peer.Update a cfg now).2).TotalTime =
      if peer.Active = true ∧ peer.AnnounceLast > 0 then
        (if intToU64 (wrap32 (now - peer.AnnounceLast)) < (cfg.AnnInterval * 4) % u64
         then u32Mod (peer.TotalTime + u32Mod (intToU64 (wrap32 (now - peer.AnnounceLast))))
         else peer.TotalTime)
      else peer.TotalTime := by
  simp [Peer.Update, apply_ite Peer.TotalTime, apply_ite Peer.Active,
        apply_ite Peer.AnnounceLast, updateCounters_snd]

/-- C9: `Peer.Update` leaves `AnnounceLast`, `AnnounceFirst`, `UserID`,
`Username` and `TorrentID` unchanged for every announce; in particular
the last-announce timestamp is not refreshed by `Update` itself. -/
theorem C9_update_frame (peer : Peer) (a : AnnounceRequest) (cfg : Config) (now : Int) :
    ((peer.Update a cfg now).2).AnnounceLast = peer.AnnounceLast ∧
    ((peer.Update a cfg now).2).AnnounceFirst = peer.AnnounceFirst ∧
    ((peer.Update a cfg now).2).UserID = peer.UserID ∧
    ((peer.Update a cfg now).2).Username = peer.Username ∧
    ((peer.Update a cfg now).2).TorrentID = peer.TorrentID := by
  refine ⟨?_, ?_, ?_, ?_, ?_⟩
  · simp [Peer.Update, apply_ite Peer.AnnounceLast, updateCounters_snd]
  · simp [Peer.Update, apply_ite Peer.AnnounceFirst, updateCounters_snd]
  · simp [Peer.Update, apply_ite Peer.UserID, updateCounters_snd]
  · simp [Peer.Update, apply_ite Peer.Username, updateCounters_snd]
  · simp [Peer.Update, apply_ite Peer.TorrentID, updateCounters_snd]

/-- C10: the only `Active` transition `Peer.Update` performs is clearing
the flag on a stopped event; it never raises `Active` from false to
true, so an inactive peer stays inactive. -/
theorem C10_update_active (peer : Peer) (a : AnnounceRequest) (cfg : Config) (now : Int) :
    ((peer.Update a cfg now).2).Active =
      if a.Event = Event.stopped then false else peer.Active := by
  simp [Peer.Update, apply_ite Peer.Active, updateCounters_snd]

/-- C4: an announce whose reported uploaded (or downloaded) is strictly
below the stored value makes `Peer.Update` store the reported values as
the new baseline and return `(0, 0)`; and for every valid `uint64` input
the returned deltas are bounded by the reported counters (no negative /
wrapped-around delta ever escapes). -/
theorem C4_update_restart_baseline (peer : Peer) (a : AnnounceRequest)
    (cfg : Config) (now : Int)
    (hu : a.Uploaded < u64) (hd : a.Downloaded < u64) :
    ((a.Uploaded < peer.Uploaded ∨ a.Downloaded < peer.Downloaded) →
       (peer.Update a cfg now).1 = (0, 0) ∧
       ((peer.Update a cfg now).2).Uploaded = a.Uploaded ∧
       ((peer.Update a cfg now).2).Downloaded = a.Downloaded) ∧
    (peer.Update a cfg now).1.1 ≤ a.Uploaded ∧
    (peer.Update a cfg now).1.2 ≤ a.Downloaded := by
  have hf := update_fst_eq peer a cfg now
  constructor
  · intro h
    refine ⟨?_, update_snd_uploaded peer a cfg now,
            update_snd_downloaded peer a cfg now⟩
    rw [hf]
    by_cases hs : a.Event = Event.started
    · rw [if_pos hs]
    · rw [if_neg hs, if_pos h]
  · rw [hf]
    split
    · simp
    · split
      · simp
      · next h2 =>
        push_neg at h2
        refine ⟨?_, ?_⟩
        · show (if a.Uploaded ≠ peer.Uploaded
                then usub64 a.Uploaded peer.Uploaded else 0) ≤ a.Uploaded
          split
          · rw [usub64_of_le h2.1 hu]
            omega
          · exact Nat.zero_le _
        · show (if a.Downloaded ≠ peer.Downloaded
                then usub64 a.Downloaded peer.Downloaded else 0) ≤ a.Downloaded
          split
          · rw [usub64_of_le h2.2 hd]
            omega
          · exact Nat.zero_le _

/-- C4 witness: the restart scenario `peerC4` / `annC4` (reported 140
below stored 150) reaches the theorem's conclusion. -/
theorem C4_update_restart_baseline_witness :
    (annC4.Uploaded < u64 ∧ annC4.Downloaded < u64) ∧
    (((annC4.Uploaded < peerC4.Uploaded ∨ annC4.Downloaded < peerC4.Downloaded) →
       (peerC4.Update annC4 cfgX 1000).1 = (0, 0) ∧
       ((peerC4.Update annC4 cfgX 1000).2).Uploaded = annC4.Uploaded ∧
       ((peerC4.Update annC4 cfgX 1000).2).Downloaded = annC4.Downloaded) ∧
     (peerC4.Update annC4 cfgX 1000).1.1 ≤ annC4.Uploaded ∧
     (peerC4.Update annC4 cfgX 1000).1.2 ≤ annC4.Downloaded) :=
  ⟨⟨by decide, by decide⟩,
   C4_update_restart_baseline peerC4 annC4 cfgX 1000 (by decide) (by decide)⟩

/-- C5: with a sane clock (elapsed time nonnegative, below `2^31`, no
`uint32` overflow of the accumulated total, ceiling below `2^64`), the
elapsed seconds since the previous announce are added to `TotalTime`
exactly when the peer was already active, had a positive previous
announce timestamp, and the elapsed time is below four times the
configured announce interval; at or above that ceiling it is discarded. -/
theorem C5_update_total_time (peer : Peer) (a : AnnounceRequest)
    (cfg : Config) (now : Int)
    (h1 : 0 ≤ now - peer.AnnounceLast)
    (h2 : now - peer.AnnounceLast < 2 ^ 31)
    (h3 : peer.TotalTime + (now - peer.AnnounceLast).toNat < 2 ^ 32)
    (h4 : cfg.AnnInterval * 4 < u64) :
    ((peer.Update a cfg now).2).TotalTime =
      if peer.Active = true ∧ 0 < peer.AnnounceLast ∧
         (now - peer.AnnounceLast).toNat < cfg.AnnInterval * 4
      then peer.TotalTime + (now - peer.AnnounceLast).toNat
      else peer.TotalTime := by
  have hw : wrap32 (now - peer.AnnounceLast) = now - peer.AnnounceLast :=
    wrap32_eq_of_small h1 h2
  have hi : intToU64 (wrap32 (now - peer.AnnounceLast)) =
      (now - peer.AnnounceLast).toNat := by
    rw [hw]
    exact intToU64_eq_toNat h1 (by omega)
  have hc : (cfg.AnnInterval * 4) % u64 = cfg.AnnInterval * 4 :=
    Nat.mod_eq_of_lt h4
  have ht : (now - peer.AnnounceLast).toNat < 2 ^ 32 := by omega
  rw [update_totalTime_raw, hi, hc]
  by_cases hA : peer.Active = true ∧ peer.AnnounceLast > 0
  · rw [if_pos hA]
    by_cases hlt : (now - peer.AnnounceLast).toNat < cfg.AnnInterval * 4
    · rw [if_pos hlt, if_pos ⟨hA.1, hA.2, hlt⟩]
      unfold u32Mod
      rw [Nat.mod_eq_of_lt ht, Nat.mod_eq_of_lt h3]
    · rw [if_neg hlt, if_neg (by tauto)]
  · rw [if_neg hA, if_neg (by tauto)]

/-- C5 witness: an active peer with a 500-second gap (below the
7200-second ceiling of `cfgX`) accrues those 500 seconds. -/
theorem C5_update_total_time_witness :
    (0 ≤ (1500 : Int) - peerC5.AnnounceLast ∧
     (1500 : Int) - peerC5.AnnounceLast < 2 ^ 31 ∧
     peerC5.TotalTime + ((1500 : Int) - peerC5.AnnounceLast).toNat < 2 ^ 32 ∧
     cfgX.AnnInterval * 4 < u64) ∧
    ((peerC5.Update annC5 cfgX 1500).2).TotalTime =
      (if peerC5.Active = true ∧ 0 < peerC5.AnnounceLast ∧
          ((1500 : Int) - peerC5.AnnounceLast).toNat < cfgX.AnnInterval * 4
       then peerC5.TotalTime + ((1500 : Int) - peerC5.AnnounceLast).toNat
       else peerC5.TotalTime) :=
  ⟨⟨by decide, by decide, by decide, by decide⟩,
   C5_update_total_time peerC5 annC5 cfgX 1500 (by decide) (by decide)
     (by decide) (by decide)⟩

/-- C1 counterexample: `peerC1` downloaded exactly the configured
minimum (so downloaded ≥ minimum holds), never completed, and is within
the time budget, yet `IsHNR` returns false — the source compares with
strict `>`, not `≥`. -/
theorem C1_hnr_counterexample :
    cfgC1.HNRMinBytes ≤ peerC1.Downloaded ∧ 0 < peerC1.Left ∧
    peerC1.TotalTime < cfgC1.HNRThreshold ∧
    peerC1.IsHNR cfgC1 = false := by decide

/-- C1 amended: for a threshold that fits in 32 bits, `IsHNR` is true iff
downloaded is strictly greater than the configured minimum, bytes-left is
positive, and the cumulative active-seconds are below the maximum. -/
theorem C1_hnr_amended (cfg : Config) (p : Peer) (h : cfg.HNRThreshold < 2 ^ 32) :
    p.IsHNR cfg = true ↔
    (cfg.HNRMinBytes < p.Downloaded ∧ 0 < p.Left ∧
     p.TotalTime < cfg.HNRThreshold) := by
  unfold Peer.IsHNR u32Mod
  rw [Nat.mod_eq_of_lt h]
  simp [and_assoc]

/-- C1 amended, witnessed at the concrete boundary configuration. -/
theorem C1_hnr_amended_witness :
    cfgC1.HNRThreshold < 2 ^ 32 ∧
    (peerC1.IsHNR cfgC1 = true ↔
     (cfgC1.HNRMinBytes < peerC1.Downloaded ∧ 0 < peerC1.Left ∧
      peerC1.TotalTime < cfgC1.HNRThreshold)) :=
  ⟨by decide, C1_hnr_amended cfgC1 peerC1 (by decide)⟩

/-- C2 counterexample: in the spec's three-announce scenario the first
announce carries the `started` event, so `Update` takes the baseline
branch and returns delta 0, not 100. -/
theorem C2_delta_counterexample :
    ¬ (c2r1.1.1 = 100 ∧ c2r2.1.1 = 50 ∧ c2r3.1.1 = 0) := by decide

/-- C2 amended: the three successive announces with uploaded
100 (started), 150, 140 yield uploaded-deltas 0 (baseline, started
event), 50, then 0 (baseline reset on the decrease). -/
theorem C2_delta_sequence_amended :
    c2r1.1.1 = 0 ∧ c2r2.1.1 = 50 ∧ c2r3.1.1 = 0 := by decide

/-- C3 counterexample: a peer whose stored IP string does not parse as
IPv4 contributes only the two port bytes (`Write(nil)` writes nothing),
so the compact output length 2 is not a multiple of 6. -/
theorem C3_compact_length_counterexample :
    ¬ (6 ∣ (MakeCompactPeers [badIPPeer] "other").length) := by decide

/-- C3 amended: when every encoded peer (positive port, not the excluded
peer-id) has an IP string that parses as IPv4, the compact output length
is a multiple of 6. -/
theorem C3_compact_length_amended (peers : List Peer) (skip_id : String)
    (h : ∀ p ∈ peers, 0 < p.Port → p.PeerID ≠ skip_id → (parseIPv4 p.IP).isSome) :
    6 ∣ (MakeCompactPeers peers skip_id).length := by
  induction peers with
  | nil => simp [MakeCompactPeers]
  | cons p rest ih =>
    have hrest : ∀ q ∈ rest, 0 < q.Port → q.PeerID ≠ skip_id →
        (parseIPv4 q.IP).isSome :=
      fun q hq => h q (List.mem_cons_of_mem _ hq)
    unfold MakeCompactPeers
    split
    · exact ih hrest
    · split
      · exact ih hrest
      · next h1 h2 =>
        have hp : (parseIPv4 p.IP).isSome :=
          h p (List.mem_cons_self _ _) (by omega) h2
        obtain ⟨l, hl⟩ := Option.isSome_iff_exists.mp hp
        have hlen : l.length = 4 := parseIPv4_length hl
        have ihd := ih hrest
        simp only [ipWriteBytes, hl, List.length_append, List.length_cons,
                   List.length_nil, hlen]
        omega

/-- C3 amended, witnessed on a single valid-IPv4 peer. -/
theorem C3_compact_length_amended_witness :
    (∀ p ∈ [goodIPPeer], 0 < p.Port → p.PeerID ≠ "other" →
       (parseIPv4 p.IP).isSome) ∧
    6 ∣ (MakeCompactPeers [goodIPPeer] "other").length :=
  ⟨by decide, C3_compact_length_amended [goodIPPeer] "other" (by decide)⟩

/-- C6: a scrape whose parsed infohash sequence is empty is answered with
the malformed-request failure, with no registry lookup performed (the
returned lookup trace is empty; the embedding is pure, so no state is
mutated on this path). -/
theorem C6_scrape_empty_rejected (torrents : String → Option Torrent)
    (peersOf : String → List SwarmPeer) (q : ScrapeQuery)
    (h : q.InfoHashes = []) :
    scrape torrents peersOf (some q) =
      (ScrapeResult.failure TrackerErrCode.msgMalformedRequest, []) := by
  simp [scrape, h]

/-- C6 witnessed at the empty query against the concrete registries. -/
theorem C6_scrape_empty_rejected_witness :
    ({ InfoHashes := [] } : ScrapeQuery).InfoHashes = [] ∧
    scrape torrentsX peersX (some { InfoHashes := [] }) =
      (ScrapeResult.failure TrackerErrCode.msgMalformedRequest, []) :=
  ⟨rfl, C6_scrape_empty_rejected torrentsX peersX _ rfl⟩

/-- Inserting a key leaves the key list unchanged when present, else
appends the key. -/
theorem dictInsert_keys (d : Dict) (k : String) (v : ScrapeEntry) :
    (dictInsert d k v).map Prod.fst =
      if k ∈ d.map Prod.fst then d.map Prod.fst
      else d.map Prod.fst ++ [k] := by
  induction d with
  | nil => simp [dictInsert]
  | cons kv rest ih =>
    obtain ⟨k1, v1⟩ := kv
    simp only [dictInsert]
    split
    · next heq => simp [heq]
    · next hne =>
      have hne2 : ¬(k = k1) := fun he => hne he.symm
      by_cases hk : k ∈ rest.map Prod.fst <;>
        simp [ih, hne2, hk, List.mem_cons]

/-- Insertion preserves key distinctness. -/
theorem dictInsert_nodup {d : Dict} (k : String) (v : ScrapeEntry)
    (h : (d.map Prod.fst).Nodup) :
    ((dictInsert d k v).map Prod.fst).Nodup := by
  rw [dictInsert_keys]
  split
  · exact h
  · next hk => simp [List.nodup_append, h, hk]

/-- Looking up the key just inserted yields the inserted value. -/
theorem dictLookup_insert_self (d : Dict) (k : String) (v : ScrapeEntry) :
    dictLookup (dictInsert d k v) k = some v := by
  induction d with
  | nil => simp [dictInsert, dictLookup]
  | cons kv rest ih =>
    obtain ⟨k1, v1⟩ := kv
    simp only [dictInsert]
    split
    · simp [dictLookup]
    · simp [dictLookup, *]

/-- Inserting one key does not change the binding of another. -/
theorem dictLookup_insert_ne (d : Dict) (k k2 : String) (v : ScrapeEntry)
    (h : k ≠ k2) :
    dictLookup (dictInsert d k v) k2 = dictLookup d k2 := by
  induction d with
  | nil => simp [dictInsert, dictLookup, h]
  | cons kv rest ih =>
    obtain ⟨k1, v1⟩ := kv
    simp only [dictInsert]
    split
    · next heq => simp [dictLookup, heq, h]
    · simp [dictLookup, ih]

/-- The scrape loop preserves key distinctness of the accumulator. -/
theorem scrapeLoop_keys_nodup (torrents : String → Option Torrent)
    (peersOf : String → List SwarmPeer) (hs : List String) (resp : Dict)
    (h : (resp.map Prod.fst).Nodup) :
    (((scrapeLoop torrents peersOf hs resp).1).map Prod.fst).Nodup := by
  induction hs generalizing resp with
  | nil => simpa [scrapeLoop]
  | cons ih1 rest ih =>
    simp only [scrapeLoop, infoHashFromString]
    cases hih : torrents ih1 with
    | none =>
      simp only [hih]
      exact ih resp h
    | some t =>
      simp only [hih]
      exact ih _ (dictInsert_nodup _ _ h)

/-- What the scrape loop's dictionary binds each key to: the
registry-derived entry for keys still to be processed that resolve, the
accumulator's binding otherwise. -/
theorem scrapeLoop_lookup (torrents : String → Option Torrent)
    (peersOf : String → List SwarmPeer) (hs : List String) (resp : Dict)
    (k : String) :
    dictLookup (scrapeLoop torrents peersOf hs resp).1 k =
      if k ∈ hs ∧ (torrents k).isSome
      then scrapeEntryFor torrents peersOf k
      else dictLookup resp k := by
  induction hs generalizing resp with
  | nil => simp [scrapeLoop]
  | cons ih1 rest ih =>
    simp only [scrapeLoop, infoHashFromString]
    cases hih : torrents ih1 with
    | none =>
      simp only [hih]
      rw [ih]
      by_cases hk : k = ih1
      · subst hk
        simp [hih]
      · simp [hk, List.mem_cons]
    | some t =>
      simp only [hih]
      rw [ih]
      by_cases hk : k = ih1
      · subst hk
        by_cases hkr : k ∈ rest ∧ (torrents k).isSome
        · rw [if_pos hkr, if_pos ⟨List.mem_cons_self _ _, hkr.2⟩]
        · rw [if_neg hkr, dictLookup_insert_self,
              if_pos ⟨List.mem_cons_self _ _, by simp [hih]⟩]
          simp [scrapeEntryFor, hih]
      · rw [dictLookup_insert_ne _ _ _ _ (fun he => hk he.symm)]
        simp [hk, List.mem_cons]

/-- C7: for a non-empty scrape query the handler returns a dictionary
whose keys are distinct and which binds a key exactly when it was
requested and resolves in the torrent registry — to the entry holding
the swarm's complete/downloaded/incomplete counts; unresolving
infohashes are silently absent. -/
theorem C7_scrape_partial_resolution (torrents : String → Option Torrent)
    (peersOf : String → List SwarmPeer) (q : ScrapeQuery)
    (h : q.InfoHashes ≠ []) :
    ∃ d, (scrape torrents peersOf (some q)).1 = ScrapeResult.ok d ∧
      (d.map Prod.fst).Nodup ∧
      ∀ k, dictLookup d k =
        if k ∈ q.InfoHashes then scrapeEntryFor torrents peersOf k
        else none := by
  have hlen : ¬(q.InfoHashes.length = 0) := by simpa using h
  refine ⟨(scrapeLoop torrents peersOf q.InfoHashes []).1, ?_, ?_, ?_⟩
  · simp [scrape, hlen]
  · exact scrapeLoop_keys_nodup _ _ _ _ (by simp)
  · intro k
    rw [scrapeLoop_lookup]
    by_cases hk : k ∈ q.InfoHashes
    · by_cases hs : (torrents k).isSome
      · rw [if_pos ⟨hk, hs⟩, if_pos hk]
      · rw [if_neg (by tauto), if_pos hk]
        have hnone : torrents k = none := Option.not_isSome_iff_eq_none.mp hs
        simp [dictLookup, scrapeEntryFor, hnone]
    · rw [if_neg (by tauto), if_neg hk]
      rfl

/-- C7 witnessed on the three-infohash query `qX` of which `ih3` is
unknown to `torrentsX`: the theorem applies, and the dictionary built by
the loop has exactly 2 entries. -/
theorem C7_scrape_partial_resolution_witness :
    qX.InfoHashes ≠ [] ∧
    (∃ d, (scrape torrentsX peersX (some qX)).1 = ScrapeResult.ok d ∧
      (d.map Prod.fst).Nodup ∧
      ∀ k, dictLookup d k =
        if k ∈ qX.InfoHashes then scrapeEntryFor torrentsX peersX k
        else none) ∧
    ((scrapeLoop torrentsX peersX qX.InfoHashes []).1).length = 2 :=
  ⟨by decide, C7_scrape_partial_resolution torrentsX peersX qX (by decide),
   by decide⟩

end Mika
